import Mathlib

/-!
Shallow embedding of `simuvex/s_variable.py` (the variable identity model and
the `SimVariableSet` container) together with theorems settling the spec's
claims about it.

Modelling conventions:
* Python `set`s are modelled as `List`s manipulated only through operations
  that mirror CPython set semantics under the objects' `__eq__`/`__hash__`:
  insertion is a no-op when an equal element is present, `remove` of an absent
  element raises `KeyError`, difference keeps elements with no equal partner.
* Python `hash` of a value is modelled by the structural *hash key* the code
  feeds to `hash(...)` (the format-string / tuple contents), which is faithful
  up to accidental hash collisions.
* Statements that mutate `self` in place and may raise are modelled as
  functions returning `state × Except String Unit`, so a raised exception
  still reports the mutations performed before the raise, exactly as the
  in-place Python mutation does.
* Machine integers are `Int`; Python's `x & ((1 << k) - 1)` on an arbitrary
  integer is `x.emod (2 ^ k)` (Python's `%` and `&`-with-mask both yield the
  nonnegative representative).
-/

/-! ## Python set primitives on lists -/

/-- Membership scan under a Python-level equality predicate (stored element is
the first argument, the probe the second). -/
def pyMem {α : Type} (eq : α → α → Bool) (l : List α) (v : α) : Bool :=
  l.any (fun x => eq x v)

/-- Python `set.add`: no-op when an equal element is already stored. -/
def pySetAdd {α : Type} (eq : α → α → Bool) (l : List α) (v : α) : List α :=
  if pyMem eq l v then l else l ++ [v]

/-- Removal of the (first) stored element equal to `v`; callers guard with
`pyMem`. -/
def pyErase {α : Type} (eq : α → α → Bool) : List α → α → List α
  | [], _ => []
  | x :: xs, v => if eq x v then xs else x :: pyErase eq xs v

/-- Python `set.remove`: removes the equal element, or raises `KeyError` when
no stored element is equal to `v`. -/
def pySetRemove {α : Type} (eq : α → α → Bool) (l : List α) (v : α) :
    Except String (List α) :=
  if pyMem eq l v then .ok (pyErase eq l v) else .error "KeyError"

/-- Python set difference `a - b`: keeps the elements of `a` with no equal
partner in `b`. -/
def pySetDiff {α : Type} (eq : α → α → Bool) (a b : List α) : List α :=
  a.filter (fun x => !(pyMem eq b x))

/-- Python `==` on plain integers. -/
def intEq (a b : Int) : Bool := a == b

/-! ## Variable identity model (`SimVariable` subclasses) -/

/-- Modelled from the spec: the address wrapper produced by the
address-resolution layer (`AddressWrapper` from `storage/memory`, not under
`src/`): an address-plus-region record exposing a concrete integer `.address`
attribute.  As an object it is never `==` to a plain integer. -/
structure AddressWrapper where
  region : String
  address : Int
deriving DecidableEq, Repr

/-- Address field of a memory variable: a plain integer, an `AddressWrapper`,
or a (nonempty) tuple/list of integers, which only the containment query
unwraps.  Symbolic addresses are outside the claims' scope. -/
inductive SimAddr where
  | intAddr (n : Int)
  | wrapper (w : AddressWrapper)
  | tupleAddr (front : List Int) (last : Int)
deriving DecidableEq, Repr

/-- Python attribute lookup `addr.address`: only an `AddressWrapper` has the
attribute; an integer or tuple raises `AttributeError` (modelled as `none`). -/
def SimAddr.addressAttr : SimAddr → Option Int
  | .wrapper w => some w.address
  | .intAddr _ => none
  | .tupleAddr _ _ => none

/-- Value of `addr_hash` inside `SimMemoryVariable.__hash__`: the address
itself when it is an integer, `hash(addr)` when it is an `AddressWrapper`.
A tuple address has no `_model_concrete` attribute, so hashing it raises
`AttributeError` (modelled as `none`). -/
inductive AddrHashKey where
  | ofInt (n : Int)
  | ofWrapper (w : AddressWrapper)
deriving DecidableEq, Repr

/-- Partial computation of `addr_hash` (see `AddrHashKey`). -/
def SimAddr.hashKey : SimAddr → Option AddrHashKey
  | .intAddr n => some (.ofInt n)
  | .wrapper w => some (.ofWrapper w)
  | .tupleAddr _ _ => none

/-- `SimConstantVariable(ident, value, region)`; an absent `value` is `none`. -/
structure SimConstantVariable where
  ident : Option String
  value : Option Int
  region : String
deriving DecidableEq, Repr

/-- `SimConstantVariable.__hash__`: `hash(('const', value, ident, region))`,
modelled by the tuple's contents. -/
def SimConstantVariable.hashKey (c : SimConstantVariable) :
    Option Int × Option String × String :=
  (c.value, c.ident, c.region)

/-- `SimConstantVariable.__eq__`: `False` when either value is `None`,
otherwise componentwise comparison of `value`, `ident`, `region`. -/
def constEq (a b : SimConstantVariable) : Bool :=
  if a.value = none ∨ b.value = none then false
  else decide (a.value = b.value ∧ a.ident = b.ident ∧ a.region = b.region)

/-- `SimTemporaryVariable(tmp_id)`. -/
structure SimTemporaryVariable where
  tmp_id : Int
deriving DecidableEq, Repr

/-- `SimTemporaryVariable.__hash__`: `hash('tmp_%d' % tmp_id)`, modelled by
the formatted id. -/
def SimTemporaryVariable.hashKey (t : SimTemporaryVariable) : Int := t.tmp_id

/-- `SimTemporaryVariable.__eq__`: equal hashes. -/
def tmpEq (a b : SimTemporaryVariable) : Bool :=
  decide (a.hashKey = b.hashKey)

/-- `SimRegisterVariable(reg_offset, size, ident, name, region)`. -/
structure SimRegisterVariable where
  reg : Int
  size : Int
  ident : Option String
  name : Option String
  region : String
deriving DecidableEq, Repr

/-- `SimRegisterVariable.__hash__`: `hash('%s|reg_%s_%s_%s' % (region, reg,
size, ident))`, modelled by the format string's components. -/
def SimRegisterVariable.hashKey (r : SimRegisterVariable) :
    String × Int × Int × Option String :=
  (r.region, r.reg, r.size, r.ident)

/-- `SimRegisterVariable.__eq__`: equal hashes and equal `name`, `ident`,
`region`. -/
def regPyEq (a b : SimRegisterVariable) : Bool :=
  decide (a.hashKey = b.hashKey ∧ a.name = b.name ∧ a.ident = b.ident ∧
    a.region = b.region)

/-- `SimMemoryVariable(addr, size, ident, name, phi, region)`; a concrete
symbolic size is already normalised to the integer `size`. -/
structure SimMemoryVariable where
  addr : SimAddr
  size : Int
  ident : Option String
  name : Option String
  phi : Bool
  region : String
deriving DecidableEq, Repr

/-- `SimMemoryVariable.__hash__`: `hash((addr_hash, hash(size), ident))`;
`none` when computing `addr_hash` raises. -/
def SimMemoryVariable.hashKey (m : SimMemoryVariable) :
    Option (AddrHashKey × Int × Option String) :=
  m.addr.hashKey.map (fun ah => (ah, m.size, m.ident))

/-- `SimMemoryVariable.__eq__`: equal hashes and equal `name` (`region` and
`phi` are ignored). -/
def memPyEq (a b : SimMemoryVariable) : Bool :=
  decide (a.hashKey = b.hashKey ∧ a.name = b.name)

/-- Python `int.bit_length` via explicit fuel (the fuel `n` always suffices
because the argument halves at every step). -/
def bitLengthAux : Nat → Nat → Nat
  | 0, _ => 0
  | fuel + 1, n => if n = 0 then 0 else bitLengthAux fuel (n / 2) + 1

/-- Python `n.bit_length()` for a nonnegative `n`. -/
def bitLength (n : Nat) : Nat := bitLengthAux n n

/-- Offset normalisation in `SimStackVariable.__init__`: an offset above
`0x1000000` is masked with `(1 << offset.bit_length()) - 1` after negation and
negated again, i.e. reinterpreted as a negative two's-complement value. -/
def normalizeStackOffset (offset : Int) : Int :=
  if 0x1000000 < offset then
    -(((0 : Int) - offset) % ((2 : Int) ^ bitLength offset.toNat))
  else offset

/-- `SimStackVariable`: the underlying `SimMemoryVariable` built by
`__init__`, plus the `base` register name and the (normalised) `offset`. -/
structure SimStackVariable where
  toMem : SimMemoryVariable
  base : String
  offset : Int
deriving DecidableEq, Repr

/-- `SimStackVariable.__init__(offset, size, base, base_addr, ident, name,
phi, region)`: normalises the offset, then sets `addr = offset + base_addr`
when a concrete base address is supplied, else `addr = offset`. -/
def SimStackVariable.pyInit (offset size : Int) (base : String)
    (base_addr : Option Int) (ident : Option String) (name : Option String)
    (phi : Bool) (region : String) : SimStackVariable :=
  let offset' := normalizeStackOffset offset
  let addr : Int :=
    match base_addr with
    | some b => offset' + b
    | none => offset'
  { toMem := { addr := .intAddr addr, size := size, ident := ident,
               name := name, phi := phi, region := region },
    base := base, offset := offset' }

/-- Tagged union of the variable kinds a `SimVariableSet` operation can be
handed (the Python code dispatches on `type(item)`). -/
inductive SimVar where
  | reg (r : SimRegisterVariable)
  | mem (m : SimMemoryVariable)
  | stack (st : SimStackVariable)
  | const (c : SimConstantVariable)
  | tmp (t : SimTemporaryVariable)
deriving DecidableEq, Repr

/-! ## The variable set (`SimVariableSet`) -/

/-- State of a `SimVariableSet`: the two full-identity collections plus the
two fast-path index collections (register offsets, covered byte addresses). -/
structure SimVariableSet where
  register_variables : List SimRegisterVariable
  register_variable_offsets : List Int
  memory_variables : List SimMemoryVariable
  memory_variable_addresses : List Int
deriving DecidableEq, Repr

/-- `SimVariableSet.__init__`: all four collections empty. -/
def SimVariableSet.emptySet : SimVariableSet := ⟨[], [], [], []⟩

/-- `contains_register_variable`: consults only the offset index. -/
def SimVariableSet.contains_register_variable (s : SimVariableSet)
    (rv : SimRegisterVariable) : Bool :=
  pyMem intEq s.register_variable_offsets rv.reg

/-- `contains_memory_variable`: takes `a = mem_var.addr`, replaces it with
`a[-1]` when it is a tuple/list, and tests membership in the byte-address
set.  An `AddressWrapper` equals no stored integer, so it never matches. -/
def SimVariableSet.contains_memory_variable (s : SimVariableSet)
    (mv : SimMemoryVariable) : Bool :=
  match mv.addr with
  | .intAddr n => pyMem intEq s.memory_variable_addresses n
  | .tupleAddr _ last => pyMem intEq s.memory_variable_addresses last
  | .wrapper _ => false

/-- `add_register_variable`: stores the full identity and its offset. -/
def SimVariableSet.add_register_variable (s : SimVariableSet)
    (rv : SimRegisterVariable) : SimVariableSet :=
  { s with
    register_variables := pySetAdd regPyEq s.register_variables rv,
    register_variable_offsets :=
      pySetAdd intEq s.register_variable_offsets rv.reg }

/-- Byte expansion loop of `add_memory_variable`: `for i in
xrange(mem_var.size): memory_variable_addresses.add(base_address + i)`. -/
def addAddrRange (l : List Int) (base : Int) (size : Nat) : List Int :=
  (List.range size).foldl (fun acc i => pySetAdd intEq acc (base + (i : Int))) l

/-- `add_memory_variable`: `memory_variables.add(mem_var)` (which first hashes
`mem_var` and raises on a tuple address), then reads `mem_var.addr.address`
(raising `AttributeError` when the address is a plain integer or tuple), then
inserts every covered byte address. -/
def SimVariableSet.add_memory_variable (s : SimVariableSet)
    (mv : SimMemoryVariable) : SimVariableSet × Except String Unit :=
  match mv.hashKey with
  | none => (s, .error "AttributeError")
  | some _ =>
    let s1 := { s with memory_variables := pySetAdd memPyEq s.memory_variables mv }
    match mv.addr.addressAttr with
    | none => (s1, .error "AttributeError")
    | some base =>
      ({ s1 with memory_variable_addresses :=
          addAddrRange s1.memory_variable_addresses base mv.size.toNat },
       .ok ())

/-- `SimVariableSet.add`: dispatches on `type(item)` — exactly
`SimRegisterVariable` or exactly `SimMemoryVariable`; everything else
(including `SimStackVariable`, a subclass) raises `Exception('WTF')`. -/
def SimVariableSet.add (s : SimVariableSet) :
    SimVar → SimVariableSet × Except String Unit
  | .reg r =>
    if s.contains_register_variable r then (s, .ok ())
    else (s.add_register_variable r, .ok ())
  | .mem m =>
    if s.contains_memory_variable m then (s, .ok ())
    else s.add_memory_variable m
  | .stack _ => (s, .error "WTF")
  | .const _ => (s, .error "WTF")
  | .tmp _ => (s, .error "WTF")

/-- `discard_register_variable`: `register_variables.remove(reg_var)` then
`register_variable_offsets.remove(reg_var.reg)`; each `remove` raises
`KeyError` on an absent value, keeping the mutations done so far. -/
def SimVariableSet.discard_register_variable (s : SimVariableSet)
    (rv : SimRegisterVariable) : SimVariableSet × Except String Unit :=
  match pySetRemove regPyEq s.register_variables rv with
  | .error e => (s, .error e)
  | .ok l1 =>
    match pySetRemove intEq s.register_variable_offsets rv.reg with
    | .error e => ({ s with register_variables := l1 }, .error e)
    | .ok l2 =>
      ({ s with register_variables := l1, register_variable_offsets := l2 },
       .ok ())

/-- Byte removal loop of `discard_memory_variable`: evaluates
`mem_var.addr.address` inside the loop body (so a zero-size loop never raises
`AttributeError`) and `remove`s each covered byte address. -/
def removeAddrRange (addr : SimAddr) (l : List Int) (size : Nat) :
    List Int × Except String Unit :=
  (List.range size).foldl
    (fun acc i =>
      match acc with
      | (cur, .error e) => (cur, .error e)
      | (cur, .ok _) =>
        match addr.addressAttr with
        | none => (cur, .error "AttributeError")
        | some base =>
          match pySetRemove intEq cur (base + (i : Int)) with
          | .error e => (cur, .error e)
          | .ok nxt => (nxt, .ok ()))
    (l, .ok ())

/-- `discard_memory_variable`: `memory_variables.remove(mem_var)` (hashing the
argument first), then the byte removal loop. -/
def SimVariableSet.discard_memory_variable (s : SimVariableSet)
    (mv : SimMemoryVariable) : SimVariableSet × Except String Unit :=
  match mv.hashKey with
  | none => (s, .error "AttributeError")
  | some _ =>
    match pySetRemove memPyEq s.memory_variables mv with
    | .error e => (s, .error e)
    | .ok l1 =>
      let s1 := { s with memory_variables := l1 }
      let res := removeAddrRange mv.addr s1.memory_variable_addresses mv.size.toNat
      ({ s1 with memory_variable_addresses := res.1 }, res.2)

/-- `SimVariableSet.discard`: registers by exact type, memory by `isinstance`
(so stack variables take the memory path); each guarded by the fast-path
containment check; other kinds raise `Exception('')`. -/
def SimVariableSet.discard (s : SimVariableSet) :
    SimVar → SimVariableSet × Except String Unit
  | .reg r =>
    if s.contains_register_variable r then s.discard_register_variable r
    else (s, .ok ())
  | .mem m =>
    if s.contains_memory_variable m then s.discard_memory_variable m
    else (s, .ok ())
  | .stack st =>
    if s.contains_memory_variable st.toMem then s.discard_memory_variable st.toMem
    else (s, .ok ())
  | .const _ => (s, .error "Exception")
  | .tmp _ => (s, .error "Exception")

/-- `SimVariableSet.__len__`: full register identities plus full memory
identities; the index collections are not counted. -/
def SimVariableSet.pyLen (s : SimVariableSet) : Nat :=
  s.register_variables.length + s.memory_variables.length

/-- `SimVariableSet.__iter__`: all register variables, then all memory
variables. -/
def SimVariableSet.iterItems (s : SimVariableSet) : List SimVar :=
  s.register_variables.map SimVar.reg ++ s.memory_variables.map SimVar.mem

/-- `SimVariableSet.complement`: ordinary set difference on all four
collections, the index collections included. -/
def SimVariableSet.complement (s other : SimVariableSet) : SimVariableSet :=
  { register_variables :=
      pySetDiff regPyEq s.register_variables other.register_variables,
    register_variable_offsets :=
      pySetDiff intEq s.register_variable_offsets other.register_variable_offsets,
    memory_variables :=
      pySetDiff memPyEq s.memory_variables other.memory_variables,
    memory_variable_addresses :=
      pySetDiff intEq s.memory_variable_addresses other.memory_variable_addresses }

/-- `SimVariableSet.__contains__`: fast-path checks for exactly
`SimRegisterVariable` / exactly `SimMemoryVariable`; any other kind raises. -/
def SimVariableSet.containsItem (s : SimVariableSet) :
    SimVar → Except String Bool
  | .reg r => .ok (s.contains_register_variable r)
  | .mem m => .ok (s.contains_memory_variable m)
  | .stack _ => .error "WTF is this variable?"
  | .const _ => .error "WTF is this variable?"
  | .tmp _ => .error "WTF is this variable?"

deriving instance DecidableEq for Except

/-! ## Concrete instances used by counterexamples and witnesses -/

/-- Register `eax` at offset 8, size 4 (spec section 8's example). -/
def regEAX : SimRegisterVariable :=
  { reg := 8, size := 4, ident := none, name := some "eax", region := "" }

/-- Register `rax` at the same offset 8, size 8. -/
def regRAX : SimRegisterVariable :=
  { reg := 8, size := 8, ident := none, name := some "rax", region := "" }

/-- Memory variable at plain integer address `0x1000`, size 4. -/
def memInt1000 : SimMemoryVariable :=
  { addr := .intAddr 0x1000, size := 4, ident := none, name := none,
    phi := false, region := "" }

/-- Memory variable whose address is an `AddressWrapper` with base `0x1000`,
size 4. -/
def memWrap1000 : SimMemoryVariable :=
  { addr := .wrapper ⟨"", 0x1000⟩, size := 4, ident := none, name := none,
    phi := false, region := "" }

/-- Integer-addressed memory query at a given address (size 1). -/
def memQuery (a : Int) : SimMemoryVariable :=
  { addr := .intAddr a, size := 1, ident := none, name := none,
    phi := false, region := "" }

/-- Stack variable at offset `-8` from `sp`. -/
def stackMinus8 : SimStackVariable :=
  SimStackVariable.pyInit (-8) 4 "sp" none none none false ""

/-- Constant variable with an absent value. -/
def constAbsent : SimConstantVariable := ⟨some "i", none, "r"⟩

/-- Constant variable with a present value. -/
def constPresent : SimConstantVariable := ⟨some "i", some 5, "r"⟩

/-! ## Helper lemmas on the Python set primitives -/

theorem intEq_refl (v : Int) : intEq v v = true := by
  simp [intEq]

theorem regPyEq_refl (r : SimRegisterVariable) : regPyEq r r = true := by
  simp [regPyEq]

theorem memPyEq_refl (m : SimMemoryVariable) : memPyEq m m = true := by
  simp [memPyEq]

theorem pyMem_intEq_iff {l : List Int} {v : Int} :
    pyMem intEq l v = true ↔ v ∈ l := by
  simp [pyMem, intEq, List.any_eq_true]

theorem pySetAdd_of_mem {α : Type} {eq : α → α → Bool} {l : List α} {v : α}
    (h : pyMem eq l v = true) : pySetAdd eq l v = l := by
  simp [pySetAdd, h]

theorem pySetAdd_of_not_mem {α : Type} {eq : α → α → Bool} {l : List α} {v : α}
    (h : pyMem eq l v = false) : pySetAdd eq l v = l ++ [v] := by
  simp [pySetAdd, h]

theorem pyMem_pySetAdd_self {α : Type} {eq : α → α → Bool} (l : List α) (v : α)
    (hrefl : eq v v = true) : pyMem eq (pySetAdd eq l v) v = true := by
  by_cases h : pyMem eq l v
  · rw [pySetAdd_of_mem h]; exact h
  · rw [pySetAdd_of_not_mem (by simpa using h)]
    simp [pyMem, List.any_append, hrefl]

theorem pyMem_pySetAdd_mono {α : Type} {eq : α → α → Bool} {l : List α}
    {v : α} (w : α) (h : pyMem eq l v = true) :
    pyMem eq (pySetAdd eq l w) v = true := by
  by_cases hm : pyMem eq l w
  · rwa [pySetAdd_of_mem hm]
  · rw [pySetAdd_of_not_mem (by simpa using hm)]
    simp [pyMem, List.any_append] at h ⊢
    exact Or.inl h

theorem countP_pySetAdd_of_not_mem {α : Type} {eq : α → α → Bool}
    {l : List α} {v : α} (h : pyMem eq l v = false) (hrefl : eq v v = true) :
    (pySetAdd eq l v).countP (fun x => eq x v) =
      l.countP (fun x => eq x v) + 1 := by
  rw [pySetAdd_of_not_mem h]
  simp [List.countP_append, hrefl]

theorem length_pyErase_of_mem {α : Type} {eq : α → α → Bool} :
    ∀ {l : List α} {v : α}, pyMem eq l v = true →
      (pyErase eq l v).length + 1 = l.length := by
  intro l
  induction l with
  | nil => intro v h; simp [pyMem] at h
  | cons x xs ih =>
    intro v h
    by_cases hx : eq x v
    · simp [pyErase, hx]
    · have h' : (eq x v || pyMem eq xs v) = true := by
        simpa [pyMem, List.any_cons] using h
      have hxs : pyMem eq xs v = true := by
        rcases (Bool.or_eq_true _ _).mp h' with h1 | h2
        · exact absurd h1 hx
        · exact h2
      simp [pyErase, hx, ih hxs]

theorem mem_pySetDiff {α : Type} {eq : α → α → Bool} {a b : List α} {v : α} :
    v ∈ pySetDiff eq a b ↔ v ∈ a ∧ pyMem eq b v = false := by
  simp [pySetDiff, List.mem_filter]

theorem pySetDiff_self {α : Type} {eq : α → α → Bool} {l : List α}
    (hrefl : ∀ x, eq x x = true) : pySetDiff eq l l = [] := by
  unfold pySetDiff
  rw [List.filter_eq_nil_iff]
  intro a ha
  simp [pyMem, List.any_eq_true]
  exact ⟨a, ha, hrefl a⟩

theorem foldlAdd_mem_mono {xs l : List Int} {v : Int}
    (h : pyMem intEq l v = true) :
    pyMem intEq (xs.foldl (pySetAdd intEq) l) v = true := by
  induction xs generalizing l with
  | nil => exact h
  | cons x xs ih => exact ih (pyMem_pySetAdd_mono x h)

theorem foldlAdd_mem_of_mem {xs : List Int} {v : Int} (l : List Int)
    (h : v ∈ xs) : pyMem intEq (xs.foldl (pySetAdd intEq) l) v = true := by
  induction xs generalizing l with
  | nil => simp at h
  | cons x xs ih =>
    rcases List.mem_cons.mp h with h1 | h2
    · subst h1
      rw [List.foldl_cons]
      exact foldlAdd_mem_mono (pyMem_pySetAdd_self l v (intEq_refl v))
    · rw [List.foldl_cons]
      exact ih _ h2

theorem foldlAdd_id_of_all_mem {xs l : List Int}
    (h : ∀ x ∈ xs, pyMem intEq l x = true) :
    xs.foldl (pySetAdd intEq) l = l := by
  induction xs with
  | nil => rfl
  | cons x xs ih =>
    rw [List.foldl_cons, pySetAdd_of_mem (h x (List.mem_cons_self x xs))]
    exact ih (fun y hy => h y (List.mem_cons_of_mem x hy))

theorem addAddrRange_eq_foldl (l : List Int) (base : Int) (size : Nat) :
    addAddrRange l base size =
      ((List.range size).map (fun i => base + (i : Int))).foldl
        (pySetAdd intEq) l := by
  rw [List.foldl_map]
  rfl

theorem addAddrRange_idem (l : List Int) (base : Int) (size : Nat) :
    addAddrRange (addAddrRange l base size) base size =
      addAddrRange l base size := by
  rw [addAddrRange_eq_foldl l, addAddrRange_eq_foldl]
  exact foldlAdd_id_of_all_mem (fun x hx => foldlAdd_mem_of_mem l hx)

theorem nodup_pySetAdd_int {l : List Int} {v : Int} (h : l.Nodup) :
    (pySetAdd intEq l v).Nodup := by
  by_cases hm : pyMem intEq l v
  · rwa [pySetAdd_of_mem hm]
  · rw [pySetAdd_of_not_mem (by simpa using hm)]
    have hv : v ∉ l := fun hvl => hm (pyMem_intEq_iff.mpr hvl)
    simp [List.nodup_append, h, hv]

theorem nodup_foldlAdd {xs l : List Int} (h : l.Nodup) :
    (xs.foldl (pySetAdd intEq) l).Nodup := by
  induction xs generalizing l with
  | nil => exact h
  | cons x xs ih => exact ih (nodup_pySetAdd_int h)

theorem nodup_addAddrRange {l : List Int} (base : Int) (size : Nat)
    (h : l.Nodup) : (addAddrRange l base size).Nodup := by
  rw [addAddrRange_eq_foldl]
  exact nodup_foldlAdd h

theorem contains_memory_congr {s1 s2 : SimVariableSet} (m : SimMemoryVariable)
    (h : s1.memory_variable_addresses = s2.memory_variable_addresses) :
    s1.contains_memory_variable m = s2.contains_memory_variable m := by
  unfold SimVariableSet.contains_memory_variable
  cases m.addr <;> simp [h]

theorem addressAttr_some {a : SimAddr} {b : Int} (h : a.addressAttr = some b) :
    ∃ w : AddressWrapper, a = .wrapper w ∧ w.address = b := by
  cases a with
  | wrapper w => exact ⟨w, rfl, by simpa [SimAddr.addressAttr] using h⟩
  | intAddr n => simp [SimAddr.addressAttr] at h
  | tupleAddr f l => simp [SimAddr.addressAttr] at h

theorem bitLengthAux_lt : ∀ (fuel n : Nat), n ≤ fuel → n < 2 ^ bitLengthAux fuel n := by
  intro fuel
  induction fuel with
  | zero =>
    intro n h
    have hn : n = 0 := Nat.le_zero.mp h
    subst hn
    simp [bitLengthAux]
  | succ f ih =>
    intro n h
    by_cases h0 : n = 0
    · subst h0; simp [bitLengthAux]
    · have hdiv : n / 2 ≤ f := by
        have h1 : n / 2 < n := Nat.div_lt_self (Nat.pos_of_ne_zero h0) (by norm_num)
        omega
      have h2 := ih (n / 2) hdiv
      have h3 : bitLengthAux (f + 1) n = bitLengthAux f (n / 2) + 1 := by
        simp [bitLengthAux, h0]
      rw [h3, pow_succ]
      omega

theorem lt_two_pow_bitLength (n : Nat) : n < 2 ^ bitLength n :=
  bitLengthAux_lt n n le_rfl

/-! ## Claim C5 -/

/-- Claim C5, counterexample: constructing a Constant twice with identical
attributes but an absent value yields two values that are *not* equal (the
claim asserts equality for all valid attribute values, and an absent value is
valid and constructible). -/
theorem c5_counterexample : constEq constAbsent constAbsent = false := by
  decide

/-- Claim C5 as amended: for every variant, Equals implies equal hash keys;
and constructing the same variant twice with identical attributes yields equal
values for Temporary, Register, Memory and Stack variables, and for Constant
variables whose value is present — a Constant with an absent value is the one
exception. -/
theorem c5_identity_determinism_amended :
    (∀ a b : SimConstantVariable, constEq a b = true → a.hashKey = b.hashKey) ∧
    (∀ a b : SimTemporaryVariable, tmpEq a b = true → a.hashKey = b.hashKey) ∧
    (∀ a b : SimRegisterVariable, regPyEq a b = true → a.hashKey = b.hashKey) ∧
    (∀ a b : SimMemoryVariable, memPyEq a b = true → a.hashKey = b.hashKey) ∧
    (∀ t : SimTemporaryVariable, tmpEq t t = true) ∧
    (∀ r : SimRegisterVariable, regPyEq r r = true) ∧
    (∀ m : SimMemoryVariable, memPyEq m m = true) ∧
    (∀ (off sz : Int) (base : String) (ba : Option Int) (ident name : Option String)
        (phi : Bool) (region : String),
      memPyEq (SimStackVariable.pyInit off sz base ba ident name phi region).toMem
        (SimStackVariable.pyInit off sz base ba ident name phi region).toMem = true) ∧
    (∀ c : SimConstantVariable, c.value ≠ none → constEq c c = true) := by
  refine ⟨?_, ?_, ?_, ?_, ?_, ?_, ?_, ?_, ?_⟩
  · intro a b h
    unfold constEq at h
    by_cases hv : a.value = none ∨ b.value = none
    · rw [if_pos hv] at h
      exact absurd h (by simp)
    · rw [if_neg hv] at h
      have h' := of_decide_eq_true h
      simp [SimConstantVariable.hashKey, h'.1, h'.2.1, h'.2.2]
  · intro a b h
    exact of_decide_eq_true h
  · intro a b h
    exact (of_decide_eq_true h).1
  · intro a b h
    exact (of_decide_eq_true h).1
  · intro t; simp [tmpEq]
  · exact regPyEq_refl
  · exact memPyEq_refl
  · intro off sz base ba ident name phi region
    exact memPyEq_refl _
  · intro c h
    simp [constEq, h]

/-- Claim C5, witness for the amended theorem's hypotheses: a Constant with a
present value is equal to its identically-constructed copy. -/
theorem c5_witness :
    constPresent.value ≠ none ∧ constEq constPresent constPresent = true :=
  ⟨by decide,
   c5_identity_determinism_amended.2.2.2.2.2.2.2.2 constPresent (by decide)⟩

/-! ## Claim C6 -/

/-- Claim C6 (confirmed): two Constant variables are unequal whenever either
value is absent, regardless of identifier and region — including a Constant
compared with itself. -/
theorem c6_constant_absent_value_never_equal (a b : SimConstantVariable)
    (h : a.value = none ∨ b.value = none) : constEq a b = false := by
  unfold constEq
  rw [if_pos h]

/-- Claim C6, witness: the absent-value Constant compared with itself. -/
theorem c6_witness :
    (constAbsent.value = none ∨ constAbsent.value = none) ∧
    constEq constAbsent constAbsent = false :=
  ⟨Or.inl rfl, c6_constant_absent_value_never_equal _ _ (Or.inl rfl)⟩

/-! ## Claim C9 -/

/-- Claim C9 (confirmed): stack construction reinterprets a large positive
concrete offset (above `0x1000000`) as the negative two's-complement value
`offset - 2 ^ offset.bit_length()`, and the address is `base_address + offset`
when a concrete base is supplied, else the offset itself; in particular
`Stack(offset=0xFFFFFFF8, base="sp")` equals `Stack(offset=-8, base="sp")`. -/
theorem c9_stack_offset_reinterpretation :
    (∀ (sz : Int) (ident name : Option String) (phi : Bool) (region : String),
      SimStackVariable.pyInit 0xFFFFFFF8 sz "sp" none ident name phi region =
        SimStackVariable.pyInit (-8) sz "sp" none ident name phi region) ∧
    (∀ off : Int, 0x1000000 < off →
      normalizeStackOffset off = off - 2 ^ bitLength off.toNat ∧
      normalizeStackOffset off < 0) ∧
    (∀ (off sz : Int) (base : String) (ba : Int) (ident name : Option String)
        (phi : Bool) (region : String),
      (SimStackVariable.pyInit off sz base (some ba) ident name phi
          region).toMem.addr = .intAddr (normalizeStackOffset off + ba) ∧
      (SimStackVariable.pyInit off sz base none ident name phi
          region).toMem.addr = .intAddr (normalizeStackOffset off)) := by
  refine ⟨?_, ?_, ?_⟩
  · intro sz ident name phi region
    have h : normalizeStackOffset 0xFFFFFFF8 = normalizeStackOffset (-8) := by
      decide
    simp [SimStackVariable.pyInit, h]
  · intro off hoff
    have hpos : (0 : Int) < off := by linarith
    have h1 : off.toNat < 2 ^ bitLength off.toNat := lt_two_pow_bitLength off.toNat
    have h2 : ((off.toNat : Int)) = off := Int.toNat_of_nonneg hpos.le
    have hofflt : off < (2 : Int) ^ bitLength off.toNat := by
      calc off = ((off.toNat : Nat) : Int) := h2.symm
        _ < ((2 ^ bitLength off.toNat : Nat) : Int) := by exact_mod_cast h1
        _ = (2 : Int) ^ bitLength off.toNat := by push_cast; ring
    have hemod : ((0 : Int) - off) % ((2 : Int) ^ bitLength off.toNat) =
        2 ^ bitLength off.toNat - off := by
      have h3 : ((0 : Int) - off) =
          (2 ^ bitLength off.toNat - off) + (2 ^ bitLength off.toNat) * (-1) := by
        ring
      rw [h3, Int.add_mul_emod_self_left]
      exact Int.emod_eq_of_lt (by linarith) (by linarith)
    have hnorm : normalizeStackOffset off = off - 2 ^ bitLength off.toNat := by
      unfold normalizeStackOffset
      rw [if_pos hoff, hemod]
      ring
    exact ⟨hnorm, by rw [hnorm]; linarith⟩
  · intro off sz base ba ident name phi region
    exact ⟨rfl, rfl⟩

/-- Claim C9, witness: the reinterpretation applied at the concrete offset
`0xFFFFFFF8` (bit length 32) yields `0xFFFFFFF8 - 2^32 = -8 < 0`. -/
theorem c9_witness :
    (0x1000000 : Int) < 0xFFFFFFF8 ∧
    (normalizeStackOffset 0xFFFFFFF8 =
        0xFFFFFFF8 - 2 ^ bitLength (0xFFFFFFF8 : Int).toNat ∧
      normalizeStackOffset 0xFFFFFFF8 < 0) :=
  ⟨by decide, c9_stack_offset_reinterpretation.2.1 0xFFFFFFF8 (by decide)⟩

/-! ## Claim C2 -/

/-- Claim C2 (code bug): adding a memory variable with a *plain integer*
address `0x1000` and size 4 does not insert any byte address — the code
evaluates `mem_var.addr.address`, which raises `AttributeError` on an integer,
after the variable was already inserted into `memory_variables`; `Contains`
at `0x1000` stays false, against the claim (and the spec's testable
property). -/
theorem c2_add_integer_address_raises :
    SimVariableSet.emptySet.add (.mem memInt1000) =
      ({ register_variables := [], register_variable_offsets := [],
         memory_variables := [memInt1000], memory_variable_addresses := [] },
       .error "AttributeError") ∧
    (SimVariableSet.emptySet.add
        (.mem memInt1000)).1.contains_memory_variable memInt1000 = false := by
  decide

/-! ## Claim C3 -/

/-- Claim C3, counterexample: `add` of a Stack variable does not succeed —
the dispatch is on the exact type (`type(item) is SimMemoryVariable`), so a
`SimStackVariable` falls into the error branch and raises. -/
theorem c3_counterexample :
    SimVariableSet.emptySet.add (.stack stackMinus8) =
      (SimVariableSet.emptySet, .error "WTF") := by
  decide

/-- Claim C3 as amended: `add` succeeds for every Register variable and for
every Memory variable whose address is an `AddressWrapper` (the only address
shape whose byte expansion succeeds), while `add` of a Constant, Temporary or
Stack variable raises immediately without modifying the set. -/
theorem c3_add_member_kinds :
    (∀ (s : SimVariableSet) (r : SimRegisterVariable),
      (s.add (.reg r)).2 = .ok ()) ∧
    (∀ (s : SimVariableSet) (m : SimMemoryVariable) (w : AddressWrapper),
      m.addr = .wrapper w → (s.add (.mem m)).2 = .ok ()) ∧
    (∀ (s : SimVariableSet) (c : SimConstantVariable),
      s.add (.const c) = (s, .error "WTF")) ∧
    (∀ (s : SimVariableSet) (t : SimTemporaryVariable),
      s.add (.tmp t) = (s, .error "WTF")) ∧
    (∀ (s : SimVariableSet) (st : SimStackVariable),
      s.add (.stack st) = (s, .error "WTF")) := by
  refine ⟨?_, ?_, ?_, ?_, ?_⟩
  · intro s r
    by_cases h : s.contains_register_variable r <;> simp [SimVariableSet.add, h]
  · intro s m w hw
    have hc : s.contains_memory_variable m = false := by
      simp [SimVariableSet.contains_memory_variable, hw]
    simp [SimVariableSet.add, hc, SimVariableSet.add_memory_variable,
      SimMemoryVariable.hashKey, hw, SimAddr.hashKey, SimAddr.addressAttr]
  · intro s c; rfl
  · intro s t; rfl
  · intro s st; rfl

/-- Claim C3, witness: adding the wrapper-addressed memory variable at base
`0x1000` to the empty set succeeds. -/
theorem c3_witness :
    memWrap1000.addr = SimAddr.wrapper ⟨"", 0x1000⟩ ∧
    (SimVariableSet.emptySet.add (.mem memWrap1000)).2 = .ok () :=
  ⟨rfl, c3_add_member_kinds.2.1 SimVariableSet.emptySet memWrap1000
    ⟨"", 0x1000⟩ rfl⟩

theorem pyMem_intEq_eq_false_iff {l : List Int} {v : Int} :
    pyMem intEq l v = false ↔ v ∉ l := by
  constructor
  · intro h hv
    rw [pyMem_intEq_iff.mpr hv] at h
    cases h
  · intro hv
    cases hpm : pyMem intEq l v
    · rfl
    · exact absurd (pyMem_intEq_iff.mp hpm) hv

/-! ## Claim C1 -/

/-- Claim C1, counterexample: with A = add(empty, Register(offset 8, size 4,
"eax")) and B = add(empty, Register(offset 8, size 8, "rax")), eax survives
the complement by full identity, but the offset index is the plain set
difference of the index collections and loses offset 8, so Contains on the
result denies the surviving element — the index collections are not
recomputed to match the survivors. -/
theorem c1_counterexample :
    (((SimVariableSet.emptySet.add (.reg regEAX)).1.complement
        (SimVariableSet.emptySet.add (.reg regRAX)).1).register_variables =
      [regEAX]) ∧
    (((SimVariableSet.emptySet.add (.reg regEAX)).1.complement
        (SimVariableSet.emptySet.add
          (.reg regRAX)).1).contains_register_variable regEAX = false) := by
  decide

/-- Claim C1 as amended: the complement's full-identity sub-collections are
exactly the per-kind set differences by full identity, its index collections
are the plain set differences of the index collections (not recomputed from
the survivors, so Contains may deny a surviving element), and the complement
of a set with itself is empty. -/
theorem c1_complement_amended (A B : SimVariableSet) :
    (∀ v, v ∈ (A.complement B).register_variables ↔
      v ∈ A.register_variables ∧ pyMem regPyEq B.register_variables v = false) ∧
    (∀ m, m ∈ (A.complement B).memory_variables ↔
      m ∈ A.memory_variables ∧ pyMem memPyEq B.memory_variables m = false) ∧
    (∀ o : Int, o ∈ (A.complement B).register_variable_offsets ↔
      o ∈ A.register_variable_offsets ∧ o ∉ B.register_variable_offsets) ∧
    (∀ a : Int, a ∈ (A.complement B).memory_variable_addresses ↔
      a ∈ A.memory_variable_addresses ∧ a ∉ B.memory_variable_addresses) ∧
    A.complement A = SimVariableSet.emptySet := by
  refine ⟨?_, ?_, ?_, ?_, ?_⟩
  · intro v; exact mem_pySetDiff
  · intro m; exact mem_pySetDiff
  · intro o
    rw [show (A.complement B).register_variable_offsets =
        pySetDiff intEq A.register_variable_offsets B.register_variable_offsets
      from rfl, mem_pySetDiff, pyMem_intEq_eq_false_iff]
  · intro a
    rw [show (A.complement B).memory_variable_addresses =
        pySetDiff intEq A.memory_variable_addresses B.memory_variable_addresses
      from rfl, mem_pySetDiff, pyMem_intEq_eq_false_iff]
  · unfold SimVariableSet.complement
    rw [pySetDiff_self regPyEq_refl, pySetDiff_self memPyEq_refl,
      pySetDiff_self intEq_refl, pySetDiff_self intEq_refl]
    rfl

/-! ## Claim C4 -/

/-- Claim C4, counterexample: rax (offset 8, size 8) is absent from the set
holding only eax (offset 8, size 4), yet Discard raises — the fast-path check
passes on the shared offset and the strict `remove` then fails on the absent
full identity. -/
theorem c4_counterexample :
    (SimVariableSet.emptySet.add (.reg regEAX)).1.discard (.reg regRAX) =
      ((SimVariableSet.emptySet.add (.reg regEAX)).1, .error "KeyError") := by
  decide

/-- Claim C4 as amended: Discard of a variable whose fast-path index is
absent is a no-op (no error, state unchanged), for registers and memory
alike; when the fast-path index is present but the full identity is absent,
Discard raises a KeyError-style error leaving the state unchanged; when the
full identity and its offset entry are both present, Discard succeeds and
removes one full identity and one offset entry. -/
theorem c4_discard_amended :
    (∀ (s : SimVariableSet) (v : SimRegisterVariable),
      s.contains_register_variable v = false →
      s.discard (.reg v) = (s, .ok ())) ∧
    (∀ (s : SimVariableSet) (m : SimMemoryVariable),
      s.contains_memory_variable m = false →
      s.discard (.mem m) = (s, .ok ())) ∧
    (∀ (s : SimVariableSet) (v : SimRegisterVariable),
      s.contains_register_variable v = true →
      pyMem regPyEq s.register_variables v = false →
      s.discard (.reg v) = (s, .error "KeyError")) ∧
    (∀ (s : SimVariableSet) (v : SimRegisterVariable),
      pyMem regPyEq s.register_variables v = true →
      pyMem intEq s.register_variable_offsets v.reg = true →
      (s.discard (.reg v)).2 = .ok () ∧
      (s.discard (.reg v)).1.register_variables.length + 1 =
        s.register_variables.length ∧
      (s.discard (.reg v)).1.register_variable_offsets.length + 1 =
        s.register_variable_offsets.length) := by
  refine ⟨?_, ?_, ?_, ?_⟩
  · intro s v h
    simp [SimVariableSet.discard, h]
  · intro s m h
    simp [SimVariableSet.discard, h]
  · intro s v hc hm
    simp [SimVariableSet.discard, hc, SimVariableSet.discard_register_variable,
      pySetRemove, hm]
  · intro s v hm ho
    have hc : s.contains_register_variable v = true := ho
    have hrem1 : pySetRemove regPyEq s.register_variables v =
        .ok (pyErase regPyEq s.register_variables v) := by
      simp [pySetRemove, hm]
    have hrem2 : pySetRemove intEq s.register_variable_offsets v.reg =
        .ok (pyErase intEq s.register_variable_offsets v.reg) := by
      simp [pySetRemove, ho]
    have hres : s.discard (.reg v) =
        ({ s with
            register_variables := pyErase regPyEq s.register_variables v,
            register_variable_offsets :=
              pyErase intEq s.register_variable_offsets v.reg }, .ok ()) := by
      simp [SimVariableSet.discard, hc,
        SimVariableSet.discard_register_variable, hrem1, hrem2]
    rw [hres]
    exact ⟨rfl, length_pyErase_of_mem hm, length_pyErase_of_mem ho⟩

/-- Claim C4, witness: discarding eax from the set holding eax succeeds and
removes the stored identity and its offset entry. -/
theorem c4_witness :
    pyMem regPyEq
      (SimVariableSet.emptySet.add (.reg regEAX)).1.register_variables
      regEAX = true ∧
    pyMem intEq
      (SimVariableSet.emptySet.add (.reg regEAX)).1.register_variable_offsets
      regEAX.reg = true ∧
    (((SimVariableSet.emptySet.add (.reg regEAX)).1.discard
        (.reg regEAX)).2 = .ok () ∧
      ((SimVariableSet.emptySet.add (.reg regEAX)).1.discard
          (.reg regEAX)).1.register_variables.length + 1 =
        (SimVariableSet.emptySet.add
          (.reg regEAX)).1.register_variables.length ∧
      ((SimVariableSet.emptySet.add (.reg regEAX)).1.discard
          (.reg regEAX)).1.register_variable_offsets.length + 1 =
        (SimVariableSet.emptySet.add
          (.reg regEAX)).1.register_variable_offsets.length) :=
  ⟨by decide, by decide,
   c4_discard_amended.2.2.2 _ regEAX (by decide) (by decide)⟩

/-! ## Claim C7 -/

/-- Claim C7 (confirmed): after adding a register variable with offset `o`,
Contains answers true for every register query with offset `o`, whatever its
size, name, identifier or region — the fast path consults only the offset
index. -/
theorem c7_register_contains_offset_only (s : SimVariableSet)
    (v q : SimRegisterVariable) (h : q.reg = v.reg) :
    ((s.add (.reg v)).1).containsItem (.reg q) = .ok true := by
  have hval : (s.add (.reg v)).1.contains_register_variable q = true := by
    by_cases hc : s.contains_register_variable v
    · have h1 : (s.add (.reg v)).1 = s := by simp [SimVariableSet.add, hc]
      rw [h1]
      unfold SimVariableSet.contains_register_variable at hc ⊢
      rw [h]; exact hc
    · have h1 : (s.add (.reg v)).1 = s.add_register_variable v := by
        simp [SimVariableSet.add, hc]
      rw [h1]
      unfold SimVariableSet.contains_register_variable
        SimVariableSet.add_register_variable
      rw [h]
      exact pyMem_pySetAdd_self _ _ (intEq_refl _)
  simp [SimVariableSet.containsItem, hval]

/-- Claim C7, witness: a set holding Register(offset 8, size 4, "eax")
answers true for the query Register(offset 8, size 8, "rax"). -/
theorem c7_witness :
    regRAX.reg = regEAX.reg ∧
    ((SimVariableSet.emptySet.add (.reg regEAX)).1).containsItem
      (.reg regRAX) = .ok true :=
  ⟨rfl, c7_register_contains_offset_only SimVariableSet.emptySet regEAX
    regRAX rfl⟩

/-! ## Claim C10 -/

/-- Claim C10 (confirmed): the memory containment query depends only on the
query's address field (taking the last element when the field is a
tuple/list) and ignores its size; in particular a query whose 4-byte span
[0xFFE, 0x1001] overlaps the tracked span [0x1000, 0x1003] but whose start
address lies outside every tracked span answers false. -/
theorem c10_memory_contains_addr_only :
    (∀ (s : SimVariableSet) (m : SimMemoryVariable) (sz : Int),
      s.contains_memory_variable { m with size := sz } =
        s.contains_memory_variable m) ∧
    (∀ (s : SimVariableSet) (m1 m2 : SimMemoryVariable), m1.addr = m2.addr →
      s.contains_memory_variable m1 = s.contains_memory_variable m2) ∧
    (∀ (s : SimVariableSet) (m : SimMemoryVariable) (front : List Int)
        (last : Int),
      m.addr = .tupleAddr front last →
      s.contains_memory_variable m =
        s.contains_memory_variable { m with addr := .intAddr last }) ∧
    ((SimVariableSet.emptySet.add (.mem memWrap1000)).1.containsItem
      (.mem { memQuery 0xFFE with size := 4 }) = .ok false) := by
  refine ⟨?_, ?_, ?_, ?_⟩
  · intro s m sz
    cases hm : m.addr <;>
      simp [SimVariableSet.contains_memory_variable, hm]
  · intro s m1 m2 h
    cases hm : m2.addr <;>
      simp [SimVariableSet.contains_memory_variable, h, hm]
  · intro s m front last h
    simp [SimVariableSet.contains_memory_variable, h]
  · decide

/-- Claim C10, witness: two queries sharing the address 0x1000 but with
different sizes receive the same answer from the tracked set. -/
theorem c10_witness :
    (memQuery 0x1000).addr = ({ memQuery 0x1000 with size := 8 }).addr ∧
    (SimVariableSet.emptySet.add
        (.mem memWrap1000)).1.contains_memory_variable (memQuery 0x1000) =
      (SimVariableSet.emptySet.add
        (.mem memWrap1000)).1.contains_memory_variable
        { memQuery 0x1000 with size := 8 } :=
  ⟨rfl, c10_memory_contains_addr_only.2.1 _ (memQuery 0x1000)
    { memQuery 0x1000 with size := 8 } rfl⟩

theorem add_memory_variable_reg_fields (s : SimVariableSet)
    (m : SimMemoryVariable) :
    (s.add_memory_variable m).1.register_variables = s.register_variables ∧
    (s.add_memory_variable m).1.register_variable_offsets =
      s.register_variable_offsets := by
  unfold SimVariableSet.add_memory_variable
  cases hk : m.hashKey with
  | none => exact ⟨rfl, rfl⟩
  | some k =>
    cases ha : m.addr.addressAttr with
    | none => exact ⟨rfl, rfl⟩
    | some b => exact ⟨rfl, rfl⟩

theorem add_memory_variable_mvars (s : SimVariableSet) (m : SimMemoryVariable)
    (k : AddrHashKey × Int × Option String) (hk : m.hashKey = some k) :
    (s.add_memory_variable m).1.memory_variables =
      pySetAdd memPyEq s.memory_variables m := by
  unfold SimVariableSet.add_memory_variable
  rw [hk]
  cases ha : m.addr.addressAttr with
  | none => rfl
  | some b => rfl

theorem nodup_add_memory_variable_addresses (s : SimVariableSet)
    (m : SimMemoryVariable) (h : s.memory_variable_addresses.Nodup) :
    (s.add_memory_variable m).1.memory_variable_addresses.Nodup := by
  unfold SimVariableSet.add_memory_variable
  cases hk : m.hashKey with
  | none => exact h
  | some k =>
    cases ha : m.addr.addressAttr with
    | none => exact h
    | some b => exact nodup_addAddrRange _ _ h

/-! ## Claim C8 -/

/-- Claim C8, counterexample: adding rax (offset 8, size 8) twice to the set
already holding eax (offset 8, size 4) never stores rax at all — the
fast-path check answers true on the shared offset, so iteration yields rax
zero times, not exactly once. -/
theorem c8_counterexample :
    ((((SimVariableSet.emptySet.add (.reg regEAX)).1.add
        (.reg regRAX)).1.add (.reg regRAX)).1.iterItems.count
      (.reg regRAX)) = 0 := by
  decide

/-- Claim C8 as amended: adding the same register or memory variable twice
yields exactly the same state and outcome as adding it once (so Length is
unchanged by the second add); when the fast-path check answers true the add
is a no-op that stores nothing, and when it answers false (and the variable
is not already stored by full identity, with a hashable address in the
memory case) the variable is stored exactly once more; the index collections
never acquire duplicate offsets or byte addresses. -/
theorem c8_add_idempotent :
    (∀ (s : SimVariableSet) (r : SimRegisterVariable),
      ((s.add (.reg r)).1).add (.reg r) = s.add (.reg r)) ∧
    (∀ (s : SimVariableSet) (m : SimMemoryVariable),
      ((s.add (.mem m)).1).add (.mem m) = s.add (.mem m)) ∧
    (∀ (s : SimVariableSet) (r : SimRegisterVariable),
      s.contains_register_variable r = true → s.add (.reg r) = (s, .ok ())) ∧
    (∀ (s : SimVariableSet) (r : SimRegisterVariable),
      s.contains_register_variable r = false →
      pyMem regPyEq s.register_variables r = false →
      (s.add (.reg r)).1.register_variables.countP (fun x => regPyEq x r) =
        s.register_variables.countP (fun x => regPyEq x r) + 1) ∧
    (∀ (s : SimVariableSet) (m : SimMemoryVariable),
      s.contains_memory_variable m = false →
      pyMem memPyEq s.memory_variables m = false → m.hashKey ≠ none →
      (s.add (.mem m)).1.memory_variables.countP (fun x => memPyEq x m) =
        s.memory_variables.countP (fun x => memPyEq x m) + 1) ∧
    (∀ (s : SimVariableSet) (item : SimVar),
      (s.register_variable_offsets.Nodup →
        (s.add item).1.register_variable_offsets.Nodup) ∧
      (s.memory_variable_addresses.Nodup →
        (s.add item).1.memory_variable_addresses.Nodup)) := by
  refine ⟨?_, ?_, ?_, ?_, ?_, ?_⟩
  · intro s r
    by_cases hc : s.contains_register_variable r
    · simp [SimVariableSet.add, hc]
    · have h1 : s.add (.reg r) = (s.add_register_variable r, .ok ()) := by
        simp [SimVariableSet.add, hc]
      rw [h1]
      have hc2 : (s.add_register_variable r).contains_register_variable r =
          true := by
        unfold SimVariableSet.contains_register_variable
          SimVariableSet.add_register_variable
        exact pyMem_pySetAdd_self _ _ (intEq_refl _)
      simp [SimVariableSet.add, hc2]
  · intro s m
    by_cases hc : s.contains_memory_variable m
    · simp [SimVariableSet.add, hc]
    · have hcf : s.contains_memory_variable m = false := by simpa using hc
      have h1 : s.add (.mem m) = s.add_memory_variable m := by
        simp [SimVariableSet.add, hcf]
      rw [h1]
      cases hk : m.hashKey with
      | none =>
        have h2 : s.add_memory_variable m = (s, .error "AttributeError") := by
          simp [SimVariableSet.add_memory_variable, hk]
        rw [h2]
        show s.add (.mem m) = (s, .error "AttributeError")
        rw [h1, h2]
      | some k =>
        have hmm : pySetAdd memPyEq
            (pySetAdd memPyEq s.memory_variables m) m =
            pySetAdd memPyEq s.memory_variables m :=
          pySetAdd_of_mem (pyMem_pySetAdd_self _ _ (memPyEq_refl m))
        cases ha : m.addr.addressAttr with
        | none =>
          have h2 : s.add_memory_variable m = ({ s with memory_variables := pySetAdd memPyEq s.memory_variables m }, .error "AttributeError") := by
            simp [SimVariableSet.add_memory_variable, hk, ha]
          rw [h2]
          show ({ s with memory_variables := pySetAdd memPyEq s.memory_variables m } : SimVariableSet).add (.mem m) = _
          have hc1 : ({ s with memory_variables := pySetAdd memPyEq s.memory_variables m } : SimVariableSet).contains_memory_variable m = false := by
            rw [contains_memory_congr m rfl]
            exact hcf
          simp [SimVariableSet.add, hc1, SimVariableSet.add_memory_variable,
            hk, ha, hmm]
        | some b =>
          obtain ⟨w, hw, hwb⟩ := addressAttr_some ha
          have h2 : s.add_memory_variable m = ({ s with memory_variables := pySetAdd memPyEq s.memory_variables m, memory_variable_addresses := addAddrRange s.memory_variable_addresses b m.size.toNat }, .ok ()) := by
            simp [SimVariableSet.add_memory_variable, hk, ha]
          rw [h2]
          show ({ s with memory_variables := pySetAdd memPyEq s.memory_variables m, memory_variable_addresses := addAddrRange s.memory_variable_addresses b m.size.toNat } : SimVariableSet).add (.mem m) = _
          have hc2 : ({ s with memory_variables := pySetAdd memPyEq s.memory_variables m, memory_variable_addresses := addAddrRange s.memory_variable_addresses b m.size.toNat } : SimVariableSet).contains_memory_variable m = false := by
            simp [SimVariableSet.contains_memory_variable, hw]
          simp [SimVariableSet.add, hc2, SimVariableSet.add_memory_variable,
            hk, ha, hmm, addAddrRange_idem]
  · intro s r hc
    simp [SimVariableSet.add, hc]
  · intro s r hc hm
    have h1 : (s.add (.reg r)).1 = s.add_register_variable r := by
      simp [SimVariableSet.add, hc]
    rw [h1]
    exact countP_pySetAdd_of_not_mem hm (regPyEq_refl r)
  · intro s m hc hm hk0
    have h1 : s.add (.mem m) = s.add_memory_variable m := by
      simp [SimVariableSet.add, hc]
    rw [h1]
    cases hk : m.hashKey with
    | none => exact absurd hk hk0
    | some k =>
      rw [add_memory_variable_mvars s m k hk]
      exact countP_pySetAdd_of_not_mem hm (memPyEq_refl m)
  · intro s item
    cases item with
    | reg r =>
      by_cases hc : s.contains_register_variable r
      · constructor <;> intro h <;> simpa [SimVariableSet.add, hc] using h
      · have h1 : (s.add (.reg r)).1 = s.add_register_variable r := by
          simp [SimVariableSet.add, hc]
        rw [h1]
        constructor
        · intro h
          exact nodup_pySetAdd_int h
        · intro h
          exact h
    | mem m =>
      by_cases hc : s.contains_memory_variable m
      · constructor <;> intro h <;> simpa [SimVariableSet.add, hc] using h
      · have h1 : (s.add (.mem m)).1 = (s.add_memory_variable m).1 := by
          simp [SimVariableSet.add, hc]
        rw [h1]
        constructor
        · intro h
          rw [(add_memory_variable_reg_fields s m).2]
          exact h
        · intro h
          exact nodup_add_memory_variable_addresses s m h
    | stack st => exact ⟨fun h => h, fun h => h⟩
    | const c => exact ⟨fun h => h, fun h => h⟩
    | tmp t => exact ⟨fun h => h, fun h => h⟩

/-- Claim C8, witness: adding eax to the empty set stores it exactly once. -/
theorem c8_witness :
    SimVariableSet.emptySet.contains_register_variable regEAX = false ∧
    pyMem regPyEq SimVariableSet.emptySet.register_variables regEAX = false ∧
    (SimVariableSet.emptySet.add (.reg regEAX)).1.register_variables.countP
        (fun x => regPyEq x regEAX) =
      SimVariableSet.emptySet.register_variables.countP
        (fun x => regPyEq x regEAX) + 1 :=
  ⟨rfl, rfl, c8_add_idempotent.2.2.2.1 SimVariableSet.emptySet regEAX rfl rfl⟩
